import Mathlib

/-!
Shallow embedding of the Forkast restaurant-review analyzer.

Text is modelled as a list of characters.  The external lexical polarity
estimator (TextBlob) is modelled as an oracle parameter of type
`List Char → ℚ`; its documented numeric contract is a value in the
interval from -1 to 1.  All other logic is translated from the Python
source: the sentence splitter of `src/utils.py`, and the aspect
detector, cuisine classifier, entity extractor and sentiment analyzer
of `src/src/`.
-/

set_option maxRecDepth 8000

namespace Forkast

/-- Characters of the regex class the source splits sentences on: dot, bang, question mark. -/
def isTermChar (c : Char) : Bool := c == '.' || c == '!' || c == '?'

/-- Whitespace characters removed by the str.strip method of Python. -/
def isSpaceChar (c : Char) : Bool :=
  c == ' ' || c == '\t' || c == '\n' || c == '\r' || c == '\x0b' || c == '\x0c'

/-- Model of re.split on the pattern of one or more terminator characters:
a maximal run of terminators is a single boundary.  Written as a structural
right recursion: a terminator followed by another terminator belongs to the
run already accounted for by the recursive call. -/
def reSplitTerm : List Char → List (List Char)
  | [] => [[]]
  | c :: cs =>
    let r := reSplitTerm cs
    if isTermChar c then
      match cs with
      | d :: _ => if isTermChar d then r else [] :: r
      | [] => [] :: r
    else
      match r with
      | [] => [[ c ]]
      | s :: ss => (c :: s) :: ss

/-- Strip of leading and trailing whitespace, as the str.strip method of Python. -/
def stripCL (l : List Char) : List Char :=
  ((l.dropWhile isSpaceChar).reverse.dropWhile isSpaceChar).reverse

/-- Lowercasing of a character list, as the str.lower method of Python. -/
def lowerCL (l : List Char) : List Char := l.map Char.toLower

/-- Test whether the first list is a leading segment of the second. -/
def leadsCL : List Char → List Char → Bool
  | [], _ => true
  | _ :: _, [] => false
  | a :: as, b :: bs => a == b && leadsCL as bs

/-- Containment of a contiguous substring, the operator `in` of Python on strings. -/
def hasSubstr (needle hay : List Char) : Bool :=
  (List.range (hay.length + 1)).any (fun i => leadsCL needle (hay.drop i))

/-- The function extract_sentences of src/utils.py: split the text on runs of
terminators, strip every fragment, and keep the non-empty ones. -/
def extract_sentences (l : List Char) : List (List Char) :=
  ((reSplitTerm l).filter (fun s => !(stripCL s).isEmpty)).map stripCL

/-- Sentence splitting inside AspectDetector.extract_aspect_sentences:
the same split and strip, but each kept fragment is also lowercased. -/
def sentencesOf (l : List Char) : List (List Char) :=
  ((reSplitTerm l).filter (fun s => !(stripCL s).isEmpty)).map
    (fun s => lowerCL (stripCL s))

/-- The four aspects of AspectDetector. -/
inductive Aspect
  | food
  | service
  | ambiance
  | price
deriving DecidableEq

/-- The keyword table self.aspect_keywords of AspectDetector. -/
def aspect_keywords : Aspect → List String
  | Aspect.food =>
    [ "food", "dish", "meal", "taste", "flavor", "flavour", "delicious", "tasty",
      "menu", "cuisine", "recipe", "ingredient", "fresh", "quality",
      "burger", "pizza", "pasta", "salad", "dessert", "appetizer",
      "entree", "chicken", "beef", "fish", "vegetable", "spicy", "sweet",
      "bland", "flavorless", "stale", "cold", "overcooked", "undercooked",
      "juicy", "tender", "crispy", "soggy", "burnt", "raw" ]
  | Aspect.service =>
    [ "service", "staff", "waiter", "waitress", "server", "manager",
      "friendly", "rude", "attentive", "slow", "fast", "professional",
      "helpful", "employee", "personnel", "team", "wait", "serve",
      "ignored", "forgot", "efficient", "courteous", "polite", "impolite" ]
  | Aspect.ambiance =>
    [ "ambiance", "atmosphere", "decor", "environment", "vibe", "mood",
      "cozy", "romantic", "loud", "quiet", "clean", "dirty", "lighting",
      "music", "seating", "interior", "decoration", "place", "setting",
      "spacious", "cramped", "elegant", "tacky", "modern", "outdated" ]
  | Aspect.price =>
    [ "price", "expensive", "cheap", "affordable", "value", "cost",
      "worth", "overpriced", "reasonable", "budget", "money", "bill",
      "pricey", "inexpensive", "deal", "discount", "waste" ]

/-- Membership of a sentence in an aspect bucket: some keyword occurs as a
contiguous substring of the sentence. -/
def matchesAspect (a : Aspect) (s : List Char) : Bool :=
  (aspect_keywords a).any (fun k => hasSubstr k.data s)

/-- The loop of AspectDetector.extract_aspect_sentences: starting from an
empty list per aspect, walk the sentences in document order and append each
sentence to the bucket of every aspect it matches. -/
def extract_aspect_sentences (text : List Char) : Aspect → List (List Char) :=
  (sentencesOf text).foldl
    (fun acc sentence => fun a =>
      if matchesAspect a sentence then acc a ++ [ sentence ] else acc a)
    (fun _ => [])

/-- The list negative_words of AspectDetector.analyze_aspect_sentiment. -/
def negative_words : List String :=
  [ "not", "no", "never", "terrible", "horrible", "awful", "bad", "worst",
    "disappointing", "poor", "rude", "slow", "cold", "stale", "bland",
    "overpriced", "expensive", "waste", "dirty", "loud", "cramped" ]

/-- The list positive_words of AspectDetector.analyze_aspect_sentiment. -/
def positive_words : List String :=
  [ "great", "excellent", "amazing", "fantastic", "wonderful", "perfect",
    "delicious", "best", "love", "loved", "good", "nice", "fresh",
    "friendly", "attentive", "cozy", "beautiful", "worth" ]

/-- Test has_negative of the scorer: some negative indicator occurs in the
lowercased sentence. -/
def hasNegWord (sl : List Char) : Bool :=
  negative_words.any (fun w => hasSubstr w.data sl)

/-- Test has_positive of the scorer: some positive indicator occurs in the
lowercased sentence. -/
def hasPosWord (sl : List Char) : Bool :=
  positive_words.any (fun w => hasSubstr w.data sl)

/-- The first override of the scorer: if a negative indicator is present and
the base polarity is above -0.3, force the polarity to -0.5. -/
def negOverride (base : List Char → ℚ) (s : List Char) : ℚ :=
  if hasNegWord (lowerCL s) = true ∧ base s > -(3 : ℚ)/10 then -(1 : ℚ)/2 else base s

/-- The per-sentence polarity of AspectDetector.analyze_aspect_sentiment:
base polarity from the external estimator, then the negative override, then
the positive override, applied in that order.  If a positive indicator is
present and the value left by the negative override is below 0.3, the
polarity is forced to 0.5. -/
def sentencePolarity (base : List Char → ℚ) (s : List Char) : ℚ :=
  if hasPosWord (lowerCL s) = true ∧ negOverride base s < (3 : ℚ)/10 then (1 : ℚ)/2
  else negOverride base s

/-- The value avg_polarity of AspectDetector.analyze_aspect_sentiment: the
unweighted arithmetic mean of the sentence polarities. -/
def avgPolarity (base : List Char → ℚ) (sentences : List (List Char)) : ℚ :=
  (sentences.map (sentencePolarity base)).sum /
    ((sentences.map (sentencePolarity base)).length : ℚ)

/-- The function AspectDetector.analyze_aspect_sentiment: average the
sentence polarities and threshold the mean. -/
def analyze_aspect_sentiment (base : List Char → ℚ) (sentences : List (List Char)) : String :=
  if sentences.isEmpty then "not mentioned"
  else if avgPolarity base sentences > (15 : ℚ)/100 then "positive"
  else if avgPolarity base sentences < -(15 : ℚ)/100 then "negative"
  else "neutral"

/-- The per-aspect record built by AspectDetector.extract_aspects. -/
structure AspectResult where
  sentiment : String
  sentences : List (List Char)
  mentioned : Bool

/-- The function AspectDetector.extract_aspects, per aspect. -/
def extract_aspects (base : List Char → ℚ) (text : List Char) (a : Aspect) : AspectResult :=
  let ss := extract_aspect_sentences text a
  ⟨analyze_aspect_sentiment base ss, ss, decide (ss.length > 0)⟩

/-- The twenty negative indicator words the specification document
enumerates, written in its order, for comparison against the table the
source actually tests. -/
def spec_negative_words : List String :=
  [ "terrible", "horrible", "rude", "slow", "cold", "stale", "bland",
    "overpriced", "waste", "dirty", "loud", "cramped", "not", "no", "never",
    "worst", "disappointing", "poor", "awful", "bad" ]

/-- The function SentimentAnalyzer.analyze_textblob of
src/src/sentiment_analyzer.py, with the TextBlob polarity of the input text
given as the oracle value.  A five-way label is computed first, the score is
the absolute polarity, and a label containing the word slightly is collapsed
to neutral before returning. -/
def analyze_textblob (polarity : ℚ) : String × ℚ :=
  let sentiment :=
    if polarity > (3 : ℚ)/10 then "positive"
    else if polarity < -(3 : ℚ)/10 then "negative"
    else if polarity > (1 : ℚ)/20 then "slightly positive"
    else if polarity < -(1 : ℚ)/20 then "slightly negative"
    else "neutral"
  (if hasSubstr "slightly".data sentiment.data then "neutral" else sentiment, |polarity|)

/-- Evaluation of the aggregator on a non-empty sentence list never yields
the reserved empty-case label. -/
lemma analyze_ne_of_ne_nil (base : List Char → ℚ) {ss : List (List Char)} (h : ss ≠ []) :
    analyze_aspect_sentiment base ss ≠ "not mentioned" := by
  unfold analyze_aspect_sentiment
  rw [if_neg (by simpa [List.isEmpty_iff] using h)]
  split
  · decide
  split
  · decide
  · decide

/-- Transport of the Bool-valued any across a permutation of the list. -/
lemma any_eq_of_perm {α : Type} {l1 l2 : List α} (h : List.Perm l1 l2) (f : α → Bool) :
    l1.any f = l2.any f := by
  rcases Bool.eq_false_or_eq_true (l1.any f) with h1 | h1
  · rw [h1]
    symm
    rw [List.any_eq_true] at h1 ⊢
    obtain ⟨x, hx, hfx⟩ := h1
    exact ⟨x, h.mem_iff.mp hx, hfx⟩
  · rw [h1]
    symm
    rw [List.any_eq_false] at h1 ⊢
    exact fun x hx => h1 x (h.mem_iff.mpr hx)

/-- Space characters are not sentence terminators. -/
lemma isTermChar_eq_false_of_space {c : Char} (h : isSpaceChar c = true) :
    isTermChar c = false := by
  simp only [isSpaceChar, Bool.or_eq_true, beq_iff_eq] at h
  rcases h with ((((h | h) | h) | h) | h) | h <;> subst h <;> decide

/-- A text with no terminator characters is a single segment of the split. -/
lemma reSplitTerm_all_nonterm {l : List Char} (h : ∀ c ∈ l, isTermChar c = false) :
    reSplitTerm l = [ l ] := by
  induction l with
  | nil => rfl
  | cons c cs ih =>
    have hc : isTermChar c = false := h c (by simp)
    have hcs : ∀ d ∈ cs, isTermChar d = false := fun d hd => h d (by simp [hd])
    simp [reSplitTerm, hc, ih hcs]

/-- Stripping a whitespace-only text leaves nothing. -/
lemma stripCL_of_all_space {l : List Char} (h : l.all isSpaceChar = true) : stripCL l = [] := by
  unfold stripCL
  have hd : l.dropWhile isSpaceChar = [] :=
    List.dropWhile_eq_nil_iff.mpr (by simpa [List.all_eq_true] using h)
  rw [hd]
  rfl

/-- A whitespace-only review has no sentences. -/
lemma sentencesOf_of_all_space {text : List Char} (h : text.all isSpaceChar = true) :
    sentencesOf text = [] := by
  have hsp : ∀ c ∈ text, isSpaceChar c = true := by simpa [List.all_eq_true] using h
  have hterm : ∀ c ∈ text, isTermChar c = false := fun c hc =>
    isTermChar_eq_false_of_space (hsp c hc)
  unfold sentencesOf
  rw [reSplitTerm_all_nonterm hterm]
  simp [stripCL_of_all_space h]

/-- Unfolding of the per-aspect bucket loop to a filter, for any starting
accumulator. -/
lemma foldl_bucket (a : Aspect) (ss : List (List Char)) :
    ∀ acc : Aspect → List (List Char),
      (ss.foldl
        (fun acc sentence => fun b =>
          if matchesAspect b sentence then acc b ++ [ sentence ] else acc b)
        acc) a = acc a ++ ss.filter (fun s => matchesAspect a s) := by
  induction ss with
  | nil =>
    intro acc
    simp
  | cons s rest ih =>
    intro acc
    rw [List.foldl_cons, ih]
    by_cases h : matchesAspect a s
    · simp [h, List.filter_cons]
    · simp [h, List.filter_cons]

/-- C1: for every input and aspect, the result of extract_aspects is
mentioned exactly when its sentence list is non-empty, and mentioned is
false exactly when the sentiment is the reserved not-mentioned label. -/
theorem C1_mentioned_invariant (base : List Char → ℚ) (text : List Char) (a : Aspect) :
    ((extract_aspects base text a).mentioned = true ↔
      (extract_aspects base text a).sentences ≠ []) ∧
    ((extract_aspects base text a).mentioned = false ↔
      (extract_aspects base text a).sentiment = "not mentioned") := by
  rcases h : extract_aspect_sentences text a with _ | ⟨s, rest⟩
  · simp [extract_aspects, h, analyze_aspect_sentiment]
  · have hne : (s :: rest : List (List Char)) ≠ [] := by simp
    simp [extract_aspects, h, analyze_ne_of_ne_nil base hne]

/-- C2: on a sentence carrying both a negative and a positive indicator
with base polarity zero, the negative override fires first and the positive
override fires second, so the final polarity is the positive override value
of one half. -/
theorem C2_positive_override_wins (base : List Char → ℚ) (s : List Char)
    (hneg : hasNegWord (lowerCL s) = true) (hpos : hasPosWord (lowerCL s) = true)
    (hbase : base s = 0) :
    sentencePolarity base s = (1 : ℚ)/2 := by
  have hno : negOverride base s = -(1 : ℚ)/2 := by
    unfold negOverride
    rw [if_pos ⟨hneg, by rw [hbase]; norm_num⟩]
  unfold sentencePolarity
  rw [if_pos ⟨hpos, by rw [hno]; norm_num⟩]

/-- Witness for C2 at the sentence delicious but overpriced with the zero
base scorer. -/
theorem C2_positive_override_wins_witness :
    hasNegWord (lowerCL "delicious but overpriced".data) = true ∧
    hasPosWord (lowerCL "delicious but overpriced".data) = true ∧
    sentencePolarity (fun _ => (0 : ℚ)) "delicious but overpriced".data = (1 : ℚ)/2 :=
  ⟨by decide, by decide,
    C2_positive_override_wins (fun _ => (0 : ℚ)) "delicious but overpriced".data
      (by decide) (by decide) rfl⟩

/-- C4: on a mentioned aspect the label comes from the unweighted mean of
the sentence polarities by strict thresholds, and both exact boundary values
resolve to neutral. -/
theorem C4_threshold_mean (base : List Char → ℚ) (ss : List (List Char)) (h : ss ≠ []) :
    (avgPolarity base ss > (15 : ℚ)/100 → analyze_aspect_sentiment base ss = "positive") ∧
    (avgPolarity base ss < -(15 : ℚ)/100 → analyze_aspect_sentiment base ss = "negative") ∧
    (-(15 : ℚ)/100 ≤ avgPolarity base ss ∧ avgPolarity base ss ≤ (15 : ℚ)/100 →
      analyze_aspect_sentiment base ss = "neutral") ∧
    (avgPolarity base ss = (15 : ℚ)/100 → analyze_aspect_sentiment base ss = "neutral") ∧
    (avgPolarity base ss = -(15 : ℚ)/100 → analyze_aspect_sentiment base ss = "neutral") := by
  have hne : ¬ ss.isEmpty = true := by simpa [List.isEmpty_iff] using h
  unfold analyze_aspect_sentiment
  rw [if_neg hne]
  refine ⟨?_, ?_, ?_, ?_, ?_⟩
  · intro hgt
    rw [if_pos hgt]
  · intro hlt
    rw [if_neg (by linarith), if_pos hlt]
  · rintro ⟨h1, h2⟩
    rw [if_neg (by linarith), if_neg (by linarith)]
  · intro he
    rw [if_neg (by linarith), if_neg (by linarith)]
  · intro he
    rw [if_neg (by linarith), if_neg (by linarith)]

/-- Witness for C4: a single synthetic sentence whose polarity is exactly
the boundary value resolves to neutral. -/
theorem C4_threshold_mean_witness :
    ([ [ 'x' ] ] : List (List Char)) ≠ [] ∧
    avgPolarity (fun _ => (3 : ℚ)/20) [ [ 'x' ] ] = (15 : ℚ)/100 ∧
    analyze_aspect_sentiment (fun _ => (3 : ℚ)/20) [ [ 'x' ] ] = "neutral" := by
  have hneg : hasNegWord (lowerCL [ 'x' ]) = false := by decide
  have hpos : hasPosWord (lowerCL [ 'x' ]) = false := by decide
  have havg : avgPolarity (fun _ => (3 : ℚ)/20) [ [ 'x' ] ] = (15 : ℚ)/100 := by
    simp [avgPolarity, sentencePolarity, negOverride, hneg, hpos]
    norm_num
  exact ⟨by simp, havg,
    (C4_threshold_mean (fun _ => (3 : ℚ)/20) [ [ 'x' ] ] (by simp)).2.2.2.1 havg⟩

/-- C5 counterexample: the sentence it was expensive trips the negative
indicator test and drives the negative override although it contains none of
the twenty words the specification enumerates. -/
theorem C5_neg_indicator_counterexample :
    hasNegWord (lowerCL "it was expensive".data) = true ∧
    (spec_negative_words.all
      (fun w => !(hasSubstr w.data (lowerCL "it was expensive".data)))) = true ∧
    sentencePolarity (fun _ => (0 : ℚ)) "it was expensive".data = -(1 : ℚ)/2 := by
  refine ⟨by decide, by decide, ?_⟩
  have hn : negOverride (fun _ => (0 : ℚ)) "it was expensive".data = -(1 : ℚ)/2 := by
    unfold negOverride
    rw [if_pos ⟨by decide, by norm_num⟩]
  have hp : hasPosWord (lowerCL "it was expensive".data) = false := by decide
  unfold sentencePolarity
  rw [hn, hp]
  simp

/-- C5 amended: the negative indicator table the scorer tests is the
twenty words of the specification plus the word expensive, and the test
fires exactly when one of these twenty-one words occurs as a substring of
the lowercased sentence. -/
theorem C5_neg_indicator_amended (sl : List Char) :
    hasNegWord sl =
      (spec_negative_words ++ [ "expensive" ]).any (fun w => hasSubstr w.data sl) := by
  have hperm : List.Perm negative_words (spec_negative_words ++ [ "expensive" ]) := by decide
  exact any_eq_of_perm hperm _

/-- C7: the empty input and every whitespace-only input report every aspect
as unmentioned with the reserved not-mentioned sentiment. -/
theorem C7_blank_input (base : List Char → ℚ) (text : List Char) (a : Aspect)
    (h : text.all isSpaceChar = true) :
    (extract_aspects base text a).mentioned = false ∧
    (extract_aspects base text a).sentiment = "not mentioned" := by
  have hs : extract_aspect_sentences text a = [] := by
    unfold extract_aspect_sentences
    rw [sentencesOf_of_all_space h]
    rfl
  simp [extract_aspects, hs, analyze_aspect_sentiment]

/-- Witness for C7 at the empty string and at a whitespace-only string. -/
theorem C7_blank_input_witness :
    ("".data.all isSpaceChar = true) ∧
    ("  \n".data.all isSpaceChar = true) ∧
    (extract_aspects (fun _ => (0 : ℚ)) "".data Aspect.food).mentioned = false ∧
    (extract_aspects (fun _ => (0 : ℚ)) "".data Aspect.food).sentiment = "not mentioned" ∧
    (extract_aspects (fun _ => (0 : ℚ)) "  \n".data Aspect.price).mentioned = false ∧
    (extract_aspects (fun _ => (0 : ℚ)) "  \n".data Aspect.price).sentiment = "not mentioned" :=
  ⟨by decide, by decide,
    (C7_blank_input (fun _ => (0 : ℚ)) "".data Aspect.food (by decide)).1,
    (C7_blank_input (fun _ => (0 : ℚ)) "".data Aspect.food (by decide)).2,
    (C7_blank_input (fun _ => (0 : ℚ)) "  \n".data Aspect.price (by decide)).1,
    (C7_blank_input (fun _ => (0 : ℚ)) "  \n".data Aspect.price (by decide)).2⟩

/-- C8: a sentence lands in an aspect bucket exactly when some trigger of
the aspect occurs as a contiguous substring, the bucket is the in-order
filter of the sentence list, and each sentence occurrence is appended at
most once. -/
theorem C8_aspect_bucket (text : List Char) (a : Aspect) :
    extract_aspect_sentences text a =
      (sentencesOf text).filter
        (fun s => (aspect_keywords a).any (fun k => hasSubstr k.data s)) ∧
    ∀ s : List Char, s ∈ extract_aspect_sentences text a ↔
      (s ∈ sentencesOf text ∧ (aspect_keywords a).any (fun k => hasSubstr k.data s) = true) := by
  have hfe : extract_aspect_sentences text a =
      (sentencesOf text).filter (fun s => matchesAspect a s) := by
    unfold extract_aspect_sentences
    simpa using foldl_bucket a (sentencesOf text) (fun _ => [])
  constructor
  · exact hfe
  · intro s
    rw [hfe]
    simp [List.mem_filter, matchesAspect]

/-- C10: the textblob analyzer returns one of exactly three labels, the
slightly labels being collapsed to neutral, and a score equal to the
absolute base polarity, hence between zero and one. -/
theorem C10_textblob_label (p : ℚ) (h1 : -1 ≤ p) (h2 : p ≤ 1) :
    ((analyze_textblob p).1 = "positive" ∨ (analyze_textblob p).1 = "negative" ∨
      (analyze_textblob p).1 = "neutral") ∧
    (analyze_textblob p).2 = |p| ∧ 0 ≤ (analyze_textblob p).2 ∧ (analyze_textblob p).2 ≤ 1 := by
  have e1 : hasSubstr "slightly".data "positive".data = false := by decide
  have e2 : hasSubstr "slightly".data "negative".data = false := by decide
  have e3 : hasSubstr "slightly".data "slightly positive".data = true := by decide
  have e4 : hasSubstr "slightly".data "slightly negative".data = true := by decide
  have e5 : hasSubstr "slightly".data "neutral".data = false := by decide
  unfold analyze_textblob
  refine ⟨?_, rfl, abs_nonneg p, abs_le.mpr ⟨h1, h2⟩⟩
  by_cases a1 : p > (3 : ℚ)/10
  · rw [if_pos a1]
    simp [e1]
  by_cases a2 : p < -(3 : ℚ)/10
  · rw [if_neg a1, if_pos a2]
    simp [e2]
  by_cases a3 : p > (1 : ℚ)/20
  · rw [if_neg a1, if_neg a2, if_pos a3]
    simp [e3]
  by_cases a4 : p < -(1 : ℚ)/20
  · rw [if_neg a1, if_neg a2, if_neg a3, if_pos a4]
    simp [e4]
  · rw [if_neg a1, if_neg a2, if_neg a3, if_neg a4]
    simp [e5]

/-- Joining of segments with a single separator character between
consecutive segments. -/
def joinSep (t : Char) : List (List Char) → List Char
  | [] => []
  | [ s ] => s
  | s :: ss => s ++ t :: joinSep t ss

/-- Idempotence of dropWhile. -/
lemma dropWhile_self {α : Type} (p : α → Bool) (l : List α) :
    (l.dropWhile p).dropWhile p = l.dropWhile p := by
  induction l with
  | nil => rfl
  | cons a as ih =>
    rw [List.dropWhile_cons]
    by_cases h : p a = true
    · rw [if_pos h]
      exact ih
    · rw [if_neg h, List.dropWhile_cons, if_neg h]

/-- The head surviving a dropWhile fails the predicate. -/
lemma dropWhile_head_false {α : Type} {p : α → Bool} {l : List α} {a : α} {as : List α}
    (h : l.dropWhile p = a :: as) : p a = false := by
  have hh := List.head?_dropWhile_not p l
  rw [h] at hh
  simpa using hh

/-- A dropWhile result is a suffix of the input. -/
lemma dropWhile_suffix {α : Type} (p : α → Bool) (l : List α) : l.dropWhile p <:+ l := by
  induction l with
  | nil => exact List.suffix_rfl
  | cons a as ih =>
    rw [List.dropWhile_cons]
    by_cases h : p a = true
    · rw [if_pos h]
      exact ih.trans (List.suffix_cons a as)
    · rw [if_neg h]

/-- A stripped text is a sublist of the original. -/
lemma stripCL_sublist (l : List Char) : (stripCL l).Sublist l := by
  unfold stripCL
  have h1 := (List.dropWhile_sublist
    (l := (l.dropWhile isSpaceChar).reverse) isSpaceChar).reverse
  rw [List.reverse_reverse] at h1
  exact h1.trans (List.dropWhile_sublist _)

/-- A stripped text is a leading part of the front-stripped text. -/
lemma stripCL_prefix_dropWhile (l : List Char) :
    stripCL l <+: l.dropWhile isSpaceChar := by
  have h := List.reverse_prefix.mpr
    (dropWhile_suffix isSpaceChar (l.dropWhile isSpaceChar).reverse)
  rwa [List.reverse_reverse] at h

/-- Idempotence of strip. -/
lemma stripCL_idem (l : List Char) : stripCL (stripCL l) = stripCL l := by
  have hdef : ∀ x : List Char,
      stripCL x = ((x.dropWhile isSpaceChar).reverse.dropWhile isSpaceChar).reverse :=
    fun _ => rfl
  have h1 : (stripCL l).dropWhile isSpaceChar = stripCL l := by
    rcases hm : stripCL l with _ | ⟨a, as⟩
    · rfl
    · have hpre : stripCL l <+: l.dropWhile isSpaceChar := stripCL_prefix_dropWhile l
      rw [hm] at hpre
      obtain ⟨rest, hrest⟩ := hpre
      have hdw : l.dropWhile isSpaceChar = a :: (as ++ rest) := by
        rw [← hrest]
        simp
      have hhead := dropWhile_head_false hdw
      rw [List.dropWhile_cons, if_neg (by simp [hhead])]
  have h2 : (stripCL l).reverse = (l.dropWhile isSpaceChar).reverse.dropWhile isSpaceChar := by
    rw [hdef l, List.reverse_reverse]
  rw [hdef (stripCL l), h1, h2, dropWhile_self, ← h2, List.reverse_reverse]

/-- Unfolding equation of the split at a cons cell. -/
lemma reSplitTerm_cons (c : Char) (cs : List Char) :
    reSplitTerm (c :: cs) =
      (if isTermChar c = true then
        match cs with
        | d :: _ => if isTermChar d = true then reSplitTerm cs else [] :: reSplitTerm cs
        | [] => [] :: reSplitTerm cs
      else
        match reSplitTerm cs with
        | [] => [[ c ]]
        | s :: ss => (c :: s) :: ss) := rfl

/-- The split never returns an empty list of segments. -/
lemma reSplitTerm_ne_nil (l : List Char) : reSplitTerm l ≠ [] := by
  induction l with
  | nil => simp [reSplitTerm]
  | cons c cs ih =>
    rw [reSplitTerm_cons]
    by_cases hc : isTermChar c = true
    · simp only [hc, if_true]
      cases cs with
      | nil => simp
      | cons d ds =>
        by_cases hd : isTermChar d = true
        · simpa [hd] using ih
        · simp [hd]
    · simp only [hc, if_false]
      rcases hr : reSplitTerm cs with _ | ⟨s, ss⟩
      · exact absurd hr ih
      · simp

/-- Every segment of the split is free of terminator characters. -/
lemma mem_reSplitTerm_nonterm {l s : List Char} (hs : s ∈ reSplitTerm l) :
    ∀ c ∈ s, isTermChar c = false := by
  induction l generalizing s with
  | nil =>
    simp [reSplitTerm] at hs
    subst hs
    simp
  | cons c cs ih =>
    obtain ⟨s0, ss, hr⟩ : ∃ s0 ss, reSplitTerm cs = s0 :: ss := by
      rcases hx : reSplitTerm cs with _ | ⟨a, b⟩
      · exact absurd hx (reSplitTerm_ne_nil cs)
      · exact ⟨a, b, rfl⟩
    by_cases hc : isTermChar c = true
    · cases cs with
      | nil =>
        have he : reSplitTerm [ c ] = [ [], [] ] := by
          rw [reSplitTerm_cons]
          simp [hc, reSplitTerm]
        rw [he] at hs
        have hnil : s = [] := by
          rcases List.mem_cons.mp hs with h1 | h1
          · exact h1
          · simpa using h1
        subst hnil
        simp
      | cons d ds =>
        by_cases hd : isTermChar d = true
        · have he : reSplitTerm (c :: d :: ds) = reSplitTerm (d :: ds) := by
            rw [reSplitTerm_cons]
            simp [hc, hd]
          rw [he] at hs
          exact ih hs
        · have he : reSplitTerm (c :: d :: ds) = [] :: reSplitTerm (d :: ds) := by
            rw [reSplitTerm_cons]
            simp [hc, hd]
          rw [he] at hs
          rcases List.mem_cons.mp hs with h1 | h1
          · subst h1
            simp
          · exact ih h1
    · have hcf : isTermChar c = false := Bool.eq_false_iff.mpr hc
      have he : reSplitTerm (c :: cs) = (c :: s0) :: ss := by
        rw [reSplitTerm_cons, hr]
        simp [hc]
      rw [he] at hs
      rcases List.mem_cons.mp hs with h1 | h1
      · subst h1
        intro x hx
        rcases List.mem_cons.mp hx with h2 | h2
        · subst h2
          exact hcf
        · exact ih (s := s0) (by rw [hr]; exact List.mem_cons_self s0 ss) x h2
      · exact ih (s := s) (by rw [hr]; exact List.mem_cons_of_mem s0 h1)

/-- A leading terminator-free block is glued onto the first segment of the
split of the remainder. -/
lemma reSplitTerm_append_nonterm {s : List Char} (hs : ∀ c ∈ s, isTermChar c = false)
    {r h0 : List Char} {tl : List (List Char)} (hr : reSplitTerm r = h0 :: tl) :
    reSplitTerm (s ++ r) = (s ++ h0) :: tl := by
  induction s with
  | nil => simpa using hr
  | cons c cs ih =>
    have hc : isTermChar c = false := hs c (by simp)
    have hcs : ∀ d ∈ cs, isTermChar d = false := fun d hd => hs d (by simp [hd])
    have hih := ih hcs
    simp only [List.cons_append]
    rw [reSplitTerm_cons]
    simp [hc, hih]

/-- A terminator followed by nothing or by a non-terminator opens a fresh
empty segment. -/
lemma reSplitTerm_cons_term (t : Char) (rest : List Char) (ht : isTermChar t = true)
    (hrest : ∀ d, rest.head? = some d → isTermChar d = false) :
    reSplitTerm (t :: rest) = [] :: reSplitTerm rest := by
  rw [reSplitTerm_cons]
  cases rest with
  | nil => simp [ht]
  | cons d ds =>
    have hd : isTermChar d = false := hrest d rfl
    simp [ht, hd]

/-- Splitting the rejoin of non-empty terminator-free segments returns the
segments unchanged. -/
lemma reSplitTerm_joinSep (t : Char) (ht : isTermChar t = true) :
    ∀ ss : List (List Char), ss ≠ [] →
      (∀ s ∈ ss, s ≠ [] ∧ ∀ c ∈ s, isTermChar c = false) →
      reSplitTerm (joinSep t ss) = ss
  | [], h, _ => absurd rfl h
  | [ s ], _, hall => by
    have hs := hall s (by simp)
    have h0 : reSplitTerm ([] : List Char) = [] :: [] := rfl
    have hx := reSplitTerm_append_nonterm hs.2 h0
    simpa [joinSep] using hx
  | s :: s2 :: rest, _, hall => by
    have hs := hall s (by simp)
    have hs2 := hall s2 (by simp)
    have ih := reSplitTerm_joinSep t ht (s2 :: rest) (by simp)
      (fun x hx => hall x (by simp [hx]))
    have hjoin_head : ∀ d, (joinSep t (s2 :: rest)).head? = some d → isTermChar d = false := by
      intro d hd
      rcases hs2v : s2 with _ | ⟨a, as⟩
      · exact absurd hs2v hs2.1
      · have hhd : (joinSep t ((a :: as) :: rest)).head? = some a := by
          cases rest <;> simp [joinSep]
        rw [hs2v, hhd] at hd
        injection hd with hda
        exact hda ▸ hs2.2 a (by rw [hs2v]; simp)
    have hterm := reSplitTerm_cons_term t _ ht hjoin_head
    rw [ih] at hterm
    have hx := reSplitTerm_append_nonterm hs.2 hterm
    have hj : joinSep t (s :: s2 :: rest) = s ++ t :: joinSep t (s2 :: rest) := by
      simp [joinSep]
    rw [hj, hx]
    simp

/-- Every output of the splitter of src/utils.py is a non-empty, already
stripped, terminator-free fragment. -/
lemma extract_sentences_facts {l s : List Char} (hs : s ∈ extract_sentences l) :
    s ≠ [] ∧ stripCL s = s ∧ ∀ c ∈ s, isTermChar c = false := by
  unfold extract_sentences at hs
  rw [List.mem_map] at hs
  obtain ⟨raw, hraw, hmap⟩ := hs
  rw [List.mem_filter] at hraw
  obtain ⟨hrawmem, hkeep⟩ := hraw
  subst hmap
  refine ⟨?_, stripCL_idem raw, ?_⟩
  · intro hnil
    rw [hnil] at hkeep
    simp at hkeep
  · intro c hc
    exact mem_reSplitTerm_nonterm hrawmem c ((stripCL_sublist raw).subset hc)

/-- C6 counterexample: the splitter of src/utils.py trims but does not
lowercase its fragments. -/
theorem C6_lowercase_counterexample :
    extract_sentences "A.".data = [ [ 'A' ] ] ∧
    ([ [ 'A' ] ] : List (List Char)) ≠ [ lowerCL [ 'A' ] ] := by
  decide

/-- C6 amended: the splitter returns the non-empty stripped segments of the
terminator split, and re-joining its output with any terminator and
re-splitting returns the same segment texts. -/
theorem C6_split_idempotent (l : List Char) (t : Char) (ht : isTermChar t = true) :
    extract_sentences (joinSep t (extract_sentences l)) = extract_sentences l ∧
    ∀ s ∈ extract_sentences l, s ≠ [] ∧ stripCL s = s := by
  have hfacts : ∀ s ∈ extract_sentences l, s ≠ [] ∧ stripCL s = s := fun s hs =>
    ⟨(extract_sentences_facts hs).1, (extract_sentences_facts hs).2.1⟩
  refine ⟨?_, hfacts⟩
  rcases hout : extract_sentences l with _ | ⟨s0, rest⟩
  · rfl
  · have hall : ∀ s ∈ s0 :: rest, s ≠ [] ∧ ∀ c ∈ s, isTermChar c = false := by
      intro s hs
      rw [← hout] at hs
      exact ⟨(extract_sentences_facts hs).1, (extract_sentences_facts hs).2.2⟩
    have hsplit := reSplitTerm_joinSep t ht (s0 :: rest) (by simp) hall
    unfold extract_sentences
    rw [hsplit]
    have hstrip : ∀ s ∈ s0 :: rest, stripCL s = s := by
      intro s hs
      rw [← hout] at hs
      exact (extract_sentences_facts hs).2.1
    have hkeep : ∀ s ∈ s0 :: rest, (!(stripCL s).isEmpty) = true := by
      intro s hs
      rw [hstrip s hs]
      have hne := (hall s hs).1
      simpa [List.isEmpty_iff] using hne
    rw [List.filter_eq_self.mpr hkeep,
      List.map_congr_left (g := id) (fun s hs => hstrip s hs), List.map_id]

/-- Witness for the amended C6 at a concrete two-sentence review. -/
theorem C6_split_idempotent_witness :
    isTermChar '.' = true ∧
    extract_sentences (joinSep '.' (extract_sentences "Hi there. Bye!!".data)) =
      extract_sentences "Hi there. Bye!!".data :=
  ⟨by decide, (C6_split_idempotent "Hi there. Bye!!".data '.' (by decide)).1⟩

/-- The pasta review of the accuracy tests and of the specification. -/
def pastaReview : List Char := "The pasta was delicious but overpriced. Service was okay.".data

/-- The first sentence of the pasta review after split, strip and lowering. -/
def pastaSentence : List Char := "the pasta was delicious but overpriced".data

/-- The second sentence of the pasta review after split, strip and lowering. -/
def serviceSentence : List Char := "service was okay".data

/-- The pasta sentence carries both indicator kinds, so its polarity is one
half no matter what the base estimator answers. -/
lemma sentencePolarity_pasta (base : List Char → ℚ) :
    sentencePolarity base pastaSentence = (1 : ℚ)/2 := by
  have hp : hasPosWord (lowerCL pastaSentence) = true := by decide
  by_cases hb : base pastaSentence > -(3 : ℚ)/10
  · have hno : negOverride base pastaSentence = -(1 : ℚ)/2 := by
      unfold negOverride
      rw [if_pos ⟨by decide, hb⟩]
    unfold sentencePolarity
    rw [if_pos ⟨hp, by rw [hno]; norm_num⟩, ]
  · have hno : negOverride base pastaSentence = base pastaSentence := by
      unfold negOverride
      exact if_neg (fun hc => hb hc.2)
    unfold sentencePolarity
    rw [if_pos ⟨hp, by rw [hno]; linarith [not_lt.mp hb]⟩]

/-- Evaluation of the aggregator on a single sentence: the mean is that
sentence's polarity. -/
lemma analyze_single (base : List Char → ℚ) (s : List Char) :
    analyze_aspect_sentiment base [ s ] =
      (if sentencePolarity base s > (15 : ℚ)/100 then "positive"
       else if sentencePolarity base s < -(15 : ℚ)/100 then "negative"
       else "neutral") := by
  have havg : avgPolarity base [ s ] = sentencePolarity base s := by
    simp [avgPolarity]
  simp [analyze_aspect_sentiment, havg]

/-- C3 counterexample: on the pasta review with the neutral base scorer the
price aspect comes out positive, not negative as claimed, because the
sentence also holds the positive indicator delicious and the positive
override is applied last. -/
theorem C3_price_counterexample :
    (extract_aspects (fun _ => (0 : ℚ)) pastaReview Aspect.price).sentiment = "positive" := by
  have hss : extract_aspect_sentences pastaReview Aspect.price = [ pastaSentence ] := by decide
  show analyze_aspect_sentiment (fun _ => (0 : ℚ))
    (extract_aspect_sentences pastaReview Aspect.price) = "positive"
  rw [hss, analyze_single, sentencePolarity_pasta, if_pos (by norm_num)]

/-- C3 amended: under any base scorer within the documented range, the
pasta review yields food positive, price positive, service mentioned, and
the service sentiment is neutral exactly when the base score of the service
sentence stays within the neutral band. -/
theorem C3_pasta_review_amended (base : List Char → ℚ)
    (hb : ∀ s : List Char, -1 ≤ base s ∧ base s ≤ 1) :
    (extract_aspects base pastaReview Aspect.food).sentiment = "positive" ∧
    (extract_aspects base pastaReview Aspect.price).sentiment = "positive" ∧
    (extract_aspects base pastaReview Aspect.service).mentioned = true ∧
    ((extract_aspects base pastaReview Aspect.service).sentiment = "neutral" ↔
      (-(15 : ℚ)/100 ≤ base serviceSentence ∧ base serviceSentence ≤ (15 : ℚ)/100)) := by
  have hfood : extract_aspect_sentences pastaReview Aspect.food = [ pastaSentence ] := by decide
  have hprice : extract_aspect_sentences pastaReview Aspect.price = [ pastaSentence ] := by decide
  have hserv : extract_aspect_sentences pastaReview Aspect.service = [ serviceSentence ] := by
    decide
  have hspol : sentencePolarity base serviceSentence = base serviceSentence := by
    have hneg : hasNegWord (lowerCL serviceSentence) = false := by decide
    have hpos : hasPosWord (lowerCL serviceSentence) = false := by decide
    unfold sentencePolarity negOverride
    rw [hneg, hpos]
    simp
  refine ⟨?_, ?_, ?_, ?_⟩
  · show analyze_aspect_sentiment base
      (extract_aspect_sentences pastaReview Aspect.food) = "positive"
    rw [hfood, analyze_single, sentencePolarity_pasta, if_pos (by norm_num)]
  · show analyze_aspect_sentiment base
      (extract_aspect_sentences pastaReview Aspect.price) = "positive"
    rw [hprice, analyze_single, sentencePolarity_pasta, if_pos (by norm_num)]
  · show decide ((extract_aspect_sentences pastaReview Aspect.service).length > 0) = true
    rw [hserv]
    simp
  · show analyze_aspect_sentiment base
      (extract_aspect_sentences pastaReview Aspect.service) = "neutral" ↔ _
    rw [hserv, analyze_single, hspol]
    constructor
    · intro h
      by_cases h1 : base serviceSentence > (15 : ℚ)/100
      · rw [if_pos h1] at h
        exact absurd h (by decide)
      by_cases h2 : base serviceSentence < -(15 : ℚ)/100
      · rw [if_neg h1, if_pos h2] at h
        exact absurd h (by decide)
      · exact ⟨by linarith [not_lt.mp h2], by linarith [not_lt.mp h1]⟩
    · rintro ⟨hl, hr⟩
      rw [if_neg (by linarith), if_neg (by linarith)]

/-- Witness for the amended C3 at the neutral base scorer. -/
theorem C3_pasta_review_amended_witness :
    (extract_aspects (fun _ => (0 : ℚ)) pastaReview Aspect.food).sentiment = "positive" ∧
    (extract_aspects (fun _ => (0 : ℚ)) pastaReview Aspect.price).sentiment = "positive" ∧
    (extract_aspects (fun _ => (0 : ℚ)) pastaReview Aspect.service).mentioned = true ∧
    ((extract_aspects (fun _ => (0 : ℚ)) pastaReview Aspect.service).sentiment = "neutral" ↔
      (-(15 : ℚ)/100 ≤ (0 : ℚ) ∧ (0 : ℚ) ≤ (15 : ℚ)/100)) :=
  C3_pasta_review_amended (fun _ => (0 : ℚ)) (fun _ => ⟨by norm_num, by norm_num⟩)

/-- The dictionary self.cuisine_keywords of CuisineClassifier, in insertion
order. -/
def cuisine_keywords : List (String × List String) :=
  [ ("Italian",
     [ "pasta", "pizza", "spaghetti", "lasagna", "risotto", "gelato",
       "tiramisu", "parmigiana", "carbonara", "bruschetta", "gnocchi",
       "italian", "marinara", "alfredo", "mozzarella", "parmesan",
       "fettuccine", "ravioli" ]),
    ("Chinese",
     [ "noodle", "dumpling", "wonton", "fried rice", "chow mein",
       "kung pao", "sweet and sour", "dim sum", "chinese", "szechuan",
       "cantonese", "spring roll", "fortune cookie", "stir fry", "soy sauce",
       "peking duck", "hot pot" ]),
    ("Indian",
     [ "curry", "naan", "biryani", "tandoori", "masala", "samosa",
       "paneer", "tikka", "korma", "vindaloo", "dal", "indian",
       "chapati", "butter chicken", "roti", "chai", "dosa", "idli" ]),
    ("Mexican",
     [ "taco", "burrito", "quesadilla", "enchilada", "guacamole",
       "salsa", "nachos", "fajita", "chimichanga", "mexican",
       "tortilla", "jalapeño", "margarita", "cilantro", "tamale" ]),
    ("Japanese",
     [ "sushi", "sashimi", "ramen", "tempura", "teriyaki", "miso",
       "wasabi", "sake", "udon", "japanese", "hibachi", "edamame",
       "bento", "katsu", "soba", "california roll", "tonkatsu" ]),
    ("Korean",
     [ "korean", "bbq", "galbi", "bulgogi", "kimchi", "bibimbap",
       "korean bbq", "gochujang", "banchan", "soju", "kbbq",
       "korean fried chicken", "japchae", "tteokbokki" ]),
    ("American",
     [ "burger", "fries", "steak", "ribs", "sandwich",
       "hot dog", "mac and cheese", "fried chicken", "american",
       "coleslaw", "milkshake", "diner", "breakfast", "bacon", "eggs",
       "wings", "pulled pork" ]),
    ("Thai",
     [ "pad thai", "tom yum", "thai", "coconut", "lemongrass",
       "basil", "peanut sauce", "mango", "sticky rice",
       "green curry", "red curry", "papaya salad" ]),
    ("Mediterranean",
     [ "hummus", "falafel", "kebab", "gyro", "shawarma", "pita",
       "mediterranean", "greek", "olive", "feta", "tzatziki", "lamb",
       "baba ganoush", "tabbouleh" ]),
    ("Ethiopian",
     [ "ethiopian", "injera", "doro wat", "berbere", "kitfo",
       "habesha", "teff", "mesob" ]),
    ("Brazilian",
     [ "brazilian", "picanha", "fogo", "churrasco", "pao de queijo",
       "caipirinha", "feijoada", "brigadeiro" ]),
    ("Vietnamese",
     [ "pho", "banh mi", "vietnamese", "spring rolls", "bun",
       "vermicelli", "fish sauce", "lemongrass" ]),
    ("French",
     [ "french", "foie gras", "escargot", "croissant", "crepe",
       "ratatouille", "coq au vin", "bouillabaisse", "beef wellington" ]) ]

/-- The dictionary explicit_mentions of classify_by_keywords, in insertion
order. -/
def explicit_mentions : List (String × String) :=
  [ ("korean", "Korean"), ("korean bbq", "Korean"), ("kbbq", "Korean"),
    ("indian", "Indian"), ("italian", "Italian"), ("chinese", "Chinese"),
    ("japanese", "Japanese"), ("mexican", "Mexican"), ("thai", "Thai"),
    ("ethiopian", "Ethiopian"), ("brazilian", "Brazilian"),
    ("vietnamese", "Vietnamese"), ("french", "French"),
    ("mediterranean", "Mediterranean"), ("american", "American") ]

/-- Count of whitespace-separated words, the length of the result of the
str.split method of Python with no separator argument. -/
def wordCount : List Char → ℕ
  | [] => 0
  | c :: cs =>
    if isSpaceChar c then wordCount cs
    else
      match cs with
      | [] => 1
      | d :: _ => if isSpaceChar d then 1 + wordCount cs else wordCount cs

/-- The weighted score loop of classify_by_keywords for one cuisine: each
keyword found in the text adds its word count. -/
def cuisineScore (tl : List Char) (keywords : List String) : ℕ :=
  keywords.foldl (fun acc k => if hasSubstr k.data tl then acc + wordCount k.data else acc) 0

/-- The dictionary scores of classify_by_keywords, in insertion order. -/
def cuisineScores (tl : List Char) : List (String × ℕ) :=
  cuisine_keywords.map (fun p => (p.1, cuisineScore tl p.2))

/-- The expression max of the score values. -/
def maxScore (tl : List Char) : ℕ :=
  ((cuisineScores tl).map (fun p => p.2)).foldl Nat.max 0

/-- The expression max of the scores dictionary keyed by the score getter:
the first cuisine in insertion order attaining the maximal value. -/
def bestCuisine (tl : List Char) : String :=
  match (cuisineScores tl).find? (fun p => p.2 == maxScore tl) with
  | some p => p.1
  | none => ""

/-- The score looked up for the best cuisine. -/
def bestScore (tl : List Char) : ℕ :=
  match (cuisineScores tl).find? (fun p => p.1 == bestCuisine tl) with
  | some p => p.2
  | none => 0

/-- The value total_matches and the confidence expression of
classify_by_keywords. -/
def cuisineConfidence (tl : List Char) : ℚ :=
  if ((cuisineScores tl).map (fun p => p.2)).sum > 0 then
    (bestScore tl : ℚ) / (((cuisineScores tl).map (fun p => p.2)).sum : ℚ)
  else 0

/-- Execution of a straight-line Python statement list: the first statement
that returns a value ends the run. -/
def firstReturn {α : Type} : List (Option α) → Option α
  | [] => none
  | some v :: _ => some v
  | none :: rest => firstReturn rest

/-- The statement block at the tail of classify_by_keywords, source lines
139 to 148: a conditional early return of Unknown, then an unconditional
return of the best cuisine with its confidence.  The source repeats this
block verbatim at lines 149 to 158, after the unconditional return. -/
def classifyTailBlock (tl : List Char) : List (Option (String × ℚ)) :=
  [ if maxScore tl = 0 then some ("Unknown", 0) else none,
    some (bestCuisine tl, cuisineConfidence tl) ]

/-- The function CuisineClassifier.classify_by_keywords as written, the
duplicated trailing block kept in the statement list. -/
def classify_by_keywords (text : List Char) : String × ℚ :=
  match explicit_mentions.find? (fun p => hasSubstr p.1.data (lowerCL text)) with
  | some p => (p.2, 1)
  | none =>
    (firstReturn (classifyTailBlock (lowerCL text) ++ classifyTailBlock (lowerCL text))).getD
      ("", 0)

/-- The same function with the trailing duplicated block removed: the first
return is the whole contract. -/
def classify_by_keywords_live (text : List Char) : String × ℚ :=
  match explicit_mentions.find? (fun p => hasSubstr p.1.data (lowerCL text)) with
  | some p => (p.2, 1)
  | none => (firstReturn (classifyTailBlock (lowerCL text))).getD ("", 0)

/-- The list indian_dishes of EntityRecognizer.extract_dishes_by_rules. -/
def indian_dishes : List String :=
  [ "butter chicken", "chicken tikka", "tandoori chicken", "chicken curry",
    "paneer tikka", "palak paneer", "dal", "dal makhani", "biryani",
    "samosa", "naan", "garlic naan", "butter naan", "roti", "chapati",
    "paratha", "tikka masala", "korma", "vindaloo", "doro wat", "injera",
    "masala dosa", "idli", "vada", "pakora" ]

/-- The list common_dishes of EntityRecognizer.extract_dishes_by_rules. -/
def common_dishes : List String :=
  [ "pizza", "margherita pizza", "pasta", "spaghetti", "lasagna",
    "fettuccine", "carbonara", "alfredo", "ravioli", "gnocchi", "tiramisu",
    "risotto", "bruschetta", "parmigiana",
    "burger", "cheeseburger", "impossible burger", "hot dog", "fries",
    "french fries", "wings", "buffalo wings", "ribs", "pulled pork",
    "mac and cheese", "eggs benedict", "avocado toast", "milkshake",
    "sushi", "sashimi", "ramen", "tempura", "teriyaki", "tonkatsu",
    "udon", "soba", "california roll", "miso soup", "edamame",
    "taco", "fish taco", "burrito", "quesadilla", "enchilada",
    "guacamole", "nachos", "fajita", "tamale", "churro",
    "dumpling", "fried rice", "chow mein", "dim sum", "wonton",
    "kung pao chicken", "sweet and sour", "peking duck", "spring roll",
    "galbi", "bulgogi", "kimchi", "bibimbap", "japchae", "tteokbokki",
    "pad thai", "tom yum", "green curry", "red curry", "papaya salad",
    "pho", "banh mi", "steak", "filet mignon", "salad", "caesar salad",
    "quinoa salad", "soup", "sandwich", "lobster", "crab", "shrimp",
    "cheesecake", "foie gras", "beef wellington", "pani puri", "vada pav",
    "falafel", "hummus", "shawarma", "gyro", "kebab" ]

/-- The combined list all_dishes of extract_dishes_by_rules. -/
def all_dishes : List String := indian_dishes ++ common_dishes

/-- Python str.endswith on character lists. -/
def endsCL (pat hay : List Char) : Bool := leadsCL pat.reverse hay.reverse

/-- The match condition of extract_dishes_by_rules: the dish padded with
spaces occurs in the space-padded text, or the text starts or ends with the
dish. -/
def dishMatch (tl dish : List Char) : Bool :=
  hasSubstr (( ' ' :: dish) ++ [ ' ' ]) (( ' ' :: tl) ++ [ ' ' ]) ||
    leadsCL dish tl || endsCL dish tl

/-- Helper for Python str.title: the flag records whether the previous
character was alphabetic. -/
def titleGo : Bool → List Char → List Char
  | _, [] => []
  | prevAlpha, c :: cs =>
    (if c.isAlpha then (if prevAlpha then c.toLower else c.toUpper) else c) ::
      titleGo c.isAlpha cs

/-- Python str.title: the first letter of every alphabetic run uppercased,
the rest lowercased. -/
def titleCase (l : List Char) : List Char := titleGo false l

/-- The set dishes of extract_dishes_by_rules, enumerated in the insertion
order of the keyword walk with duplicates removed.  The iteration order of
the Python set is unspecified; this canonical enumeration stands for it, and
no statement below depends on the order. -/
def dishesFound (tl : List Char) : List (List Char) :=
  ((all_dishes.filter (fun d => dishMatch tl d.data)).map (fun d => titleCase d.data)).dedup

/-- The dead tail of extract_dishes_by_rules, source lines 170 to 172: keep
the dishes of at most four words, strip them, drop duplicates and return the
first ten. -/
def deadDishTail (tl : List Char) : List (List Char) :=
  ((((dishesFound tl).filter (fun d => decide (wordCount d ≤ 4))).map stripCL).dedup).take 10

/-- The statement list at the tail of extract_dishes_by_rules: the return of
the first ten dishes at source line 168, then the duplicated dead block. -/
def dishSteps (tl : List Char) : List (Option (List (List Char))) :=
  [ some ((dishesFound tl).take 10), some (deadDishTail tl) ]

/-- The function EntityRecognizer.extract_dishes_by_rules as written, the
statements after the first return kept in the statement list. -/
def extract_dishes_by_rules (text : List Char) : List (List Char) :=
  (firstReturn (dishSteps (lowerCL text))).getD []

/-- The same function with everything after the first return removed. -/
def extract_dishes_by_rules_live (text : List Char) : List (List Char) :=
  (dishesFound (lowerCL text)).take 10

/-- A block of one statement followed by an unconditional return swallows
whatever statements are appended after it. -/
lemma firstReturn_pair_append {α : Type} (x : Option α) (b : α) (r : List (Option α)) :
    firstReturn ([ x, some b ] ++ r) = firstReturn [ x, some b ] := by
  cases x with
  | some v => rfl
  | none => rfl

/-- C9: the duplicated code after the first unconditional return of
classify_by_keywords and of extract_dishes_by_rules is unreachable on every
input, so each function is extensionally equal to its version with the
trailing block removed. -/
theorem C9_dead_code :
    (∀ text : List Char, classify_by_keywords text = classify_by_keywords_live text) ∧
    (∀ text : List Char, extract_dishes_by_rules text = extract_dishes_by_rules_live text) := by
  constructor
  · intro text
    unfold classify_by_keywords classify_by_keywords_live
    cases explicit_mentions.find? (fun p => hasSubstr p.1.data (lowerCL text)) with
    | some p => rfl
    | none =>
      unfold classifyTailBlock
      rw [firstReturn_pair_append]
  · intro text
    rfl

/-- Witness for C10 at polarity one half. -/
theorem C10_textblob_label_witness :
    ((analyze_textblob ((1 : ℚ)/2)).1 = "positive" ∨
      (analyze_textblob ((1 : ℚ)/2)).1 = "negative" ∨
      (analyze_textblob ((1 : ℚ)/2)).1 = "neutral") ∧
    (analyze_textblob ((1 : ℚ)/2)).2 = |(1 : ℚ)/2| ∧
    0 ≤ (analyze_textblob ((1 : ℚ)/2)).2 ∧ (analyze_textblob ((1 : ℚ)/2)).2 ≤ 1 :=
  C10_textblob_label ((1 : ℚ)/2) (by norm_num) (by norm_num)

end Forkast
